import Mathlib

/-!
Verification development for the scrypted-remote plugin (src/src/main.ts).

The plugin connects to a remote Scrypted server, filters the remote device
set through a fixed allow-list of capability interfaces, registers the
surviving devices in a local registry, notifies the host device manager,
and wires proxies (event listeners, battery seeding, a getVideoStream
wrapper) for each imported device.

Shallow embedding conventions:
- capability interfaces (the ScryptedInterface enum of the SDK) are strings,
  matching the string values of the TypeScript enum;
- the JS object built at main.ts lines 141 to 147 becomes the structure
  Device; a remote device handle becomes RemoteDevice, with an accessible
  flag modelling whether reading remoteDevice.nativeId throws;
- the Map of main.ts line 12 becomes an association list with
  JS-Map-style set and delete operations;
- async control flow is purified: discoverDevices becomes a function from
  the client state and the registry to the new registry plus the batch
  handed to deviceManager.onDevicesChanged.
-/

namespace ScryptedRemote

/-- Local device descriptor, the object literal of main.ts lines 141 to 147
passed to filtered, and the element of the batch handed to
deviceManager.onDevicesChanged. -/
structure Device where
  name : String
  type : String
  interfaces : List String
  info : String
  nativeId : String
deriving DecidableEq, Repr

/-- A remote device handle (ScryptedDevice of the client SDK). The
accessible flag models whether the access test of main.ts line 135
(reading remoteDevice.nativeId) succeeds; batteryLevel is the current
value of the Battery property on the remote. -/
structure RemoteDevice where
  id : String
  name : String
  type : String
  interfaces : List String
  info : String
  accessible : Bool
  batteryLevel : Int
deriving DecidableEq, Repr

/-- The allow-list of main.ts lines 43 to 49: VideoCamera, Camera,
RTCSignalingChannel, Battery, MotionSensor, in that order. -/
def allowedInterfaces : List String :=
  ["VideoCamera", "Camera", "RTCSignalingChannel", "Battery", "MotionSensor"]

/-- filtered (main.ts lines 41 to 57): compute the intersection of the
allow-list with the interfaces of the device, in allow-list order; if the
intersection is empty return null, else return the device with its
interfaces replaced by the intersection. -/
def filtered (device : Device) : Option Device :=
  let intersection := allowedInterfaces.filter (fun i => device.interfaces.contains i)
  if intersection.length = 0 then
    none
  else
    some { device with interfaces := intersection }

/-- Subset of lists read as sets of capability tags. -/
def setSubset (l₁ l₂ : List String) : Prop :=
  ∀ x ∈ l₁, x ∈ l₂

/-- Strict subset of lists read as sets of capability tags. -/
def setStrictSubset (l₁ l₂ : List String) : Prop :=
  setSubset l₁ l₂ ∧ ¬ setSubset l₂ l₁

instance (l₁ l₂ : List String) : Decidable (setSubset l₁ l₂) := by
  unfold setSubset; infer_instance

instance (l₁ l₂ : List String) : Decidable (setStrictSubset l₁ l₂) := by
  unfold setStrictSubset; infer_instance

theorem filtered_eq_some {device d : Device} (h : filtered device = some d) :
    d = { device with
          interfaces := allowedInterfaces.filter (fun i => device.interfaces.contains i) } ∧
    allowedInterfaces.filter (fun i => device.interfaces.contains i) ≠ [] := by
  unfold filtered at h
  by_cases hlen :
      (allowedInterfaces.filter (fun i => device.interfaces.contains i)).length = 0
  · rw [if_pos hlen] at h
    exact Option.noConfusion h
  · rw [if_neg hlen] at h
    exact ⟨(Option.some.inj h).symm, fun hnil => hlen (by rw [hnil]; rfl)⟩

theorem filtered_eq_none {device : Device} (h : filtered device = none) :
    allowedInterfaces.filter (fun i => device.interfaces.contains i) = [] := by
  unfold filtered at h
  by_cases hlen :
      (allowedInterfaces.filter (fun i => device.interfaces.contains i)).length = 0
  · exact List.length_eq_zero.mp hlen
  · rw [if_neg hlen] at h
    exact Option.noConfusion h

theorem filtered_isSome_of_inter {device : Device}
    (h : allowedInterfaces.filter (fun i => device.interfaces.contains i) ≠ []) :
    filtered device =
      some { device with
             interfaces := allowedInterfaces.filter (fun i => device.interfaces.contains i) } := by
  unfold filtered
  rw [if_neg (fun h0 => h (List.length_eq_zero.mp h0))]

/-- The device literal built at main.ts lines 141 to 147 from a remote
handle: name, type, interfaces and info are copied, and nativeId is set to
the remote id. -/
def deviceOf (r : RemoteDevice) : Device :=
  { name := r.name
    type := r.type
    interfaces := r.interfaces
    info := r.info
    nativeId := r.id }

/-- Registry type of main.ts line 12: the Map from nativeId to the remote
handle, as an association list with JS-Map semantics. -/
def Registry : Type := List (String × RemoteDevice)

/-- JS Map.get: first entry with the key. -/
def regGet : Registry → String → Option RemoteDevice
  | [], _ => none
  | p :: rest, k => if p.1 = k then some p.2 else regGet rest k

/-- JS Map.set: replace the entry with the key in place, or append. -/
def regSet : Registry → String → RemoteDevice → Registry
  | [], k, v => [(k, v)]
  | p :: rest, k, v => if p.1 = k then (k, v) :: rest else p :: regSet rest k v

/-- JS Map.delete: remove the entry with the key. -/
def regDelete : Registry → String → Registry
  | [], _ => []
  | p :: rest, k => if p.1 = k then rest else p :: regDelete rest k

/-- The keys of the registry. -/
def regKeys (reg : Registry) : List String :=
  reg.map Prod.fst

/-- The per-device outcome inside the discovery loop of main.ts lines 131
to 156: the access test throws (continue at line 138), filtered returns
null (continue at line 150), or the device is imported. -/
inductive DeviceOutcome where
  | inaccessible
  | unsupported
  | imported (d : Device)
deriving DecidableEq, Repr

/-- Classification of one remote device by the discovery loop body:
main.ts lines 132 to 151. -/
def classify (r : RemoteDevice) : DeviceOutcome :=
  if !r.accessible then
    DeviceOutcome.inaccessible
  else
    match filtered (deviceOf r) with
    | none => DeviceOutcome.unsupported
    | some d => DeviceOutcome.imported d

/-- One iteration of the discovery loop acting on the accumulated registry
and batch: an imported device is registered under its nativeId (main.ts
line 154) and appended to the batch (line 155); the other outcomes leave
both unchanged. -/
def passStep (acc : Registry × List Device) (r : RemoteDevice) : Registry × List Device :=
  match classify r with
  | DeviceOutcome.inaccessible => acc
  | DeviceOutcome.unsupported => acc
  | DeviceOutcome.imported d => (regSet acc.1 d.nativeId r, acc.2 ++ [d])

/-- The whole discovery loop of main.ts lines 131 to 156 over the system
state snapshot, starting from the current registry and an empty batch. -/
def runPass (reg : Registry) (st : List RemoteDevice) : Registry × List Device :=
  st.foldl passStep (reg, [])

/-- The connected client: the system state snapshot (the remote devices in
snapshot iteration order) and the reported server version. -/
structure Client where
  systemState : List RemoteDevice
  serverVersion : String

/-- Result of one discoverDevices call: the new registry and the batch
passed to deviceManager.onDevicesChanged, or none when the call returned
early without notifying the host. -/
structure DiscoverResult where
  devices : Registry
  notified : Option (List Device)

/-- discoverDevices (main.ts lines 124 to 163). The duration parameter is
declared by the DeviceProvider interface; the body never reads it. With no
client the function returns at line 126 before touching the registry or
the host; otherwise it runs the loop and hands the whole batch to
deviceManager.onDevicesChanged in one call. -/
def discoverDevices (duration : Nat) (client : Option Client) (reg : Registry) :
    DiscoverResult :=
  match client with
  | none => { devices := reg, notified := none }
  | some c =>
    let p := runPass reg c.systemState
    { devices := p.1, notified := some p.2 }

/-- The battery-level slots of the host device-manager state, per
nativeId: deviceManager.getDeviceState(nativeId).batteryLevel. -/
def HostBatteryState : Type := String → Option Int

/-- The fixed-state seeding part of setupProxies (main.ts lines 70 to 72):
when the pruned interfaces contain Battery, copy the current batteryLevel
of the remote handle into the local state slot of the device, once, at
wiring time. -/
def seedBattery (device : Device) (remoteDevice : RemoteDevice)
    (hs : HostBatteryState) : HostBatteryState :=
  if device.interfaces.contains "Battery" then
    fun k => if k = device.nativeId then some remoteDevice.batteryLevel else hs k
  else
    hs

/-- RequestMediaStreamOptions: the route field plus the remaining
caller-visible fields. -/
structure StreamOptions where
  route : Option String
  fields : List (String × String)
deriving DecidableEq, Repr

/-- The empty options object built at main.ts line 80 when the caller
supplied none. -/
def emptyOptions : StreamOptions :=
  { route := none, fields := [] }

/-- The option mutation of main.ts line 82: set route to external, leaving
every other field alone. -/
def injectRoute (options : StreamOptions) : StreamOptions :=
  { options with route := some "external" }

/-- newGetVideoStream (main.ts lines 78 to 84): take the caller options or
an empty object, set route to external, delegate to the captured original
entry point and return its result unmodified. -/
def newGetVideoStream {α : Type} (remoteGetVideoStream : StreamOptions → α)
    (options : Option StreamOptions) : α :=
  remoteGetVideoStream (injectRoute (options.getD emptyOptions))

/-- The three credential fields of the settings storage; an empty string
models a missing (falsy) value. -/
structure Credentials where
  baseUrl : String
  username : String
  password : String
deriving DecidableEq, Repr

/-- The failure modes of tryLogin: the thrown configuration error of
main.ts line 98, or a connection failure raised by connectScryptedClient. -/
inductive LoginError where
  | configError
  | connectError
deriving DecidableEq, Repr

/-- Outcome of a tryLogin call: the client field afterwards, the error
raised if any, and whether connectScryptedClient was reached. -/
structure LoginResult where
  client : Option Client
  error : Option LoginError
  networkAttempted : Bool

/-- The guard of main.ts line 97: some credential field is falsy. -/
def missingCredentials (creds : Credentials) : Bool :=
  creds.baseUrl = "" || creds.username = "" || creds.password = ""

/-- tryLogin (main.ts lines 94 to 114). Line 95 sets this.client to null,
discarding the previous session, which is never read afterwards; line 97
throws the configuration error when any credential field is falsy, before
any network interaction; otherwise connectScryptedClient is awaited and
its result stored, a connection failure leaving the client null. -/
def tryLogin (prevClient : Option Client) (creds : Credentials)
    (connect : Except Unit Client) : LoginResult :=
  if missingCredentials creds then
    { client := none, error := some LoginError.configError, networkAttempted := false }
  else
    match connect with
    | Except.ok c =>
      { client := some c, error := none, networkAttempted := true }
    | Except.error _ =>
      { client := none, error := some LoginError.connectError, networkAttempted := true }

/-- The mutable state of the plugin instance relevant to the registry
invariant: the client reference, the device Map, and the history of every
descriptor ever handed to deviceManager.onDevicesChanged. -/
structure PluginState where
  client : Option Client
  devices : Registry
  emitted : List Device

/-- The state at construction: no client, empty Map, nothing emitted. -/
def initialState : PluginState :=
  { client := none, devices := [], emitted := [] }

/-- Effect of one discoverDevices call on the plugin state. -/
def applyDiscover (duration : Nat) (s : PluginState) : PluginState :=
  let r := discoverDevices duration s.client s.devices
  { s with devices := r.devices, emitted := s.emitted ++ r.notified.getD [] }

/-- Effect of one tryLogin call on the plugin state. -/
def applyLogin (s : PluginState) (creds : Credentials)
    (connect : Except Unit Client) : PluginState :=
  { s with client := (tryLogin s.client creds connect).client }

/-- Effect of releaseDevice (main.ts lines 172 to 174). -/
def applyRelease (s : PluginState) (i nativeId : String) : PluginState :=
  { s with devices := regDelete s.devices nativeId }

/-- The operations that mutate the plugin state. -/
inductive Step : PluginState → PluginState → Prop where
  | discover (s : PluginState) (duration : Nat) : Step s (applyDiscover duration s)
  | login (s : PluginState) (creds : Credentials) (connect : Except Unit Client) :
      Step s (applyLogin s creds connect)
  | release (s : PluginState) (i nativeId : String) : Step s (applyRelease s i nativeId)

/-- The states reachable from construction through the mutating
operations. -/
inductive Reachable : PluginState → Prop where
  | init : Reachable initialState
  | step {s s' : PluginState} : Reachable s → Step s s' → Reachable s'

/-- The survivor descriptor of one remote device, when there is one: the
handle is accessible and filtered accepts the derived device. -/
def importOf (r : RemoteDevice) : Option Device :=
  if r.accessible then filtered (deviceOf r) else none

/-- The batch built by one discovery pass, in snapshot order. -/
def survivors (st : List RemoteDevice) : List Device :=
  st.filterMap importOf

/-- The registry insertions performed by one discovery pass, in snapshot
order: the pruned nativeId paired with the remote handle. -/
def insertions (st : List RemoteDevice) : List (String × RemoteDevice) :=
  st.filterMap (fun r => (importOf r).map (fun d => (d.nativeId, r)))

/-- Folding a list of insertions over a registry with Map.set. -/
def applyIns (reg : Registry) (ins : List (String × RemoteDevice)) : Registry :=
  ins.foldl (fun m p => regSet m p.1 p.2) reg

theorem filtered_nativeId {device d : Device} (h : filtered device = some d) :
    d.nativeId = device.nativeId := by
  rw [(filtered_eq_some h).1]

theorem filtered_interfaces {device d : Device} (h : filtered device = some d) :
    d.interfaces = allowedInterfaces.filter (fun i => device.interfaces.contains i) := by
  rw [(filtered_eq_some h).1]

theorem filtered_interfaces_ne_nil {device d : Device} (h : filtered device = some d) :
    d.interfaces ≠ [] := by
  rw [filtered_interfaces h]
  exact (filtered_eq_some h).2

theorem regKeys_nil : regKeys [] = [] := rfl

theorem regKeys_cons (p : String × RemoteDevice) (rest : List (String × RemoteDevice)) :
    regKeys (p :: rest) = p.1 :: regKeys rest := rfl

theorem regGet_cons (p : String × RemoteDevice) (rest : List (String × RemoteDevice))
    (k : String) : regGet (p :: rest) k = if p.1 = k then some p.2 else regGet rest k := rfl

theorem regSet_cons (p : String × RemoteDevice) (rest : List (String × RemoteDevice))
    (k : String) (v : RemoteDevice) :
    regSet (p :: rest) k v = if p.1 = k then (k, v) :: rest else p :: regSet rest k v := rfl

theorem regDelete_cons (p : String × RemoteDevice) (rest : List (String × RemoteDevice))
    (k : String) : regDelete (p :: rest) k = if p.1 = k then rest else p :: regDelete rest k :=
  rfl

theorem regGet_regSet_self (reg : Registry) (k : String) (v : RemoteDevice) :
    regGet (regSet reg k v) k = some v := by
  induction reg with
  | nil => simp [regSet, regGet]
  | cons p rest ih =>
    rw [regSet_cons]
    by_cases h : p.1 = k
    · rw [if_pos h, regGet_cons, if_pos rfl]
    · rw [if_neg h, regGet_cons, if_neg h, ih]

theorem regGet_regSet_ne (reg : Registry) {k j : String} (v : RemoteDevice) (h : j ≠ k) :
    regGet (regSet reg k v) j = regGet reg j := by
  have hkj : ¬ (k = j) := fun hh => h hh.symm
  induction reg with
  | nil =>
    show (if k = j then some v else none) = none
    rw [if_neg hkj]
  | cons p rest ih =>
    rw [regSet_cons]
    by_cases hp : p.1 = k
    · rw [if_pos hp, regGet_cons, regGet_cons, if_neg hkj, if_neg (by rw [hp]; exact hkj)]
    · rw [if_neg hp, regGet_cons, regGet_cons, ih]

theorem regSet_eq_of_regGet {reg : Registry} {k : String} {v : RemoteDevice}
    (h : regGet reg k = some v) : regSet reg k v = reg := by
  induction reg with
  | nil => simp [regGet] at h
  | cons p rest ih =>
    by_cases hp : p.1 = k
    · rw [regGet, if_pos hp] at h
      cases p
      simp only at hp
      simp only [Option.some.injEq] at h
      simp [regSet, hp, h]
    · rw [regGet, if_neg hp] at h
      simp [regSet, hp, ih h]

theorem mem_regKeys_regSet {reg : Registry} {k j : String} {v : RemoteDevice}
    (h : j ∈ regKeys (regSet reg k v)) : j ∈ regKeys reg ∨ j = k := by
  induction reg with
  | nil =>
    rcases List.mem_cons.mp (show j ∈ [(k, v)].map Prod.fst from h) with h | h
    · right; exact h
    · exact absurd h (List.not_mem_nil j)
  | cons p rest ih =>
    rw [regSet_cons] at h
    by_cases hp : p.1 = k
    · rw [if_pos hp, regKeys_cons] at h
      rcases List.mem_cons.mp h with h | h
      · right; exact h
      · left; rw [regKeys_cons]; exact List.mem_cons_of_mem _ h
    · rw [if_neg hp, regKeys_cons] at h
      rcases List.mem_cons.mp h with h | h
      · left; rw [regKeys_cons, h]; exact List.mem_cons_self _ _
      · rcases ih h with h | h
        · left; rw [regKeys_cons]; exact List.mem_cons_of_mem _ h
        · right; exact h

theorem regKeys_regSet_nodup {reg : Registry} (k : String) (v : RemoteDevice)
    (h : (regKeys reg).Nodup) : (regKeys (regSet reg k v)).Nodup := by
  induction reg with
  | nil => simp [regSet, regKeys]
  | cons p rest ih =>
    rw [regKeys_cons, List.nodup_cons] at h
    rw [regSet_cons]
    by_cases hp : p.1 = k
    · rw [if_pos hp, regKeys_cons, List.nodup_cons]
      exact ⟨by show k ∉ regKeys rest; rw [← hp]; exact h.1, h.2⟩
    · rw [if_neg hp, regKeys_cons, List.nodup_cons]
      refine ⟨fun hmem => ?_, ih h.2⟩
      rcases mem_regKeys_regSet hmem with hmem | hmem
      · exact h.1 hmem
      · exact hp hmem

theorem regGet_eq_none_of_not_mem {reg : Registry} {k : String}
    (h : k ∉ regKeys reg) : regGet reg k = none := by
  induction reg with
  | nil => rfl
  | cons p rest ih =>
    rw [regKeys_cons, List.mem_cons] at h
    push_neg at h
    rw [regGet_cons, if_neg (fun hh => h.1 hh.symm)]
    exact ih h.2

theorem regGet_applyIns_not_mem {reg : Registry} {k : String}
    {ins : List (String × RemoteDevice)} (h : k ∉ ins.map Prod.fst) :
    regGet (applyIns reg ins) k = regGet reg k := by
  induction ins generalizing reg with
  | nil => rfl
  | cons p rest ih =>
    rw [List.map_cons, List.mem_cons] at h
    push_neg at h
    rw [applyIns, List.foldl_cons]
    rw [show List.foldl (fun m q => regSet m q.1 q.2) (regSet reg p.1 p.2) rest
          = applyIns (regSet reg p.1 p.2) rest from rfl]
    rw [ih h.2, regGet_regSet_ne _ _ h.1]

theorem regGet_applyIns_mem_nodup {reg : Registry}
    {ins : List (String × RemoteDevice)} (h : (ins.map Prod.fst).Nodup) :
    ∀ p ∈ ins, regGet (applyIns reg ins) p.1 = some p.2 := by
  induction ins generalizing reg with
  | nil => intro p hp; simp at hp
  | cons q rest ih =>
    rw [List.map_cons, List.nodup_cons] at h
    intro p hp
    rw [applyIns, List.foldl_cons]
    rw [show List.foldl (fun m r => regSet m r.1 r.2) (regSet reg q.1 q.2) rest
          = applyIns (regSet reg q.1 q.2) rest from rfl]
    rcases List.mem_cons.mp hp with hp | hp
    · subst hp
      rw [regGet_applyIns_not_mem h.1, regGet_regSet_self]
    · exact ih h.2 p hp

theorem applyIns_eq_of_all_regGet {reg : Registry}
    {ins : List (String × RemoteDevice)}
    (h : ∀ p ∈ ins, regGet reg p.1 = some p.2) : applyIns reg ins = reg := by
  induction ins with
  | nil => rfl
  | cons q rest ih =>
    rw [applyIns, List.foldl_cons, regSet_eq_of_regGet (h q (List.mem_cons_self q rest))]
    exact ih (fun p hp => h p (List.mem_cons_of_mem q hp))

theorem regKeys_applyIns_nodup {reg : Registry}
    {ins : List (String × RemoteDevice)} (h : (regKeys reg).Nodup) :
    (regKeys (applyIns reg ins)).Nodup := by
  induction ins generalizing reg with
  | nil => exact h
  | cons q rest ih =>
    rw [applyIns, List.foldl_cons]
    exact ih (regKeys_regSet_nodup q.1 q.2 h)

theorem regGet_applyIns_cases {reg : Registry} {k : String} {r : RemoteDevice}
    {ins : List (String × RemoteDevice)}
    (h : regGet (applyIns reg ins) k = some r) :
    (k, r) ∈ ins ∨ regGet reg k = some r := by
  induction ins generalizing reg with
  | nil => right; exact h
  | cons q rest ih =>
    rw [applyIns, List.foldl_cons] at h
    rcases ih h with hmem | hget
    · left; exact List.mem_cons_of_mem q hmem
    · by_cases hk : k = q.1
      · subst hk
        rw [regGet_regSet_self] at hget
        left
        cases q
        simp only [Option.some.injEq] at hget
        rw [hget]
        exact List.mem_cons_self _ _
      · right
        rw [regGet_regSet_ne _ _ hk] at hget
        exact hget

theorem regKeys_regDelete_sublist (reg : Registry) (k : String) :
    (regKeys (regDelete reg k)).Sublist (regKeys reg) := by
  induction reg with
  | nil => exact List.Sublist.refl _
  | cons p rest ih =>
    rw [regDelete_cons]
    by_cases hp : p.1 = k
    · rw [if_pos hp, regKeys_cons]
      exact List.sublist_cons_self _ _
    · rw [if_neg hp, regKeys_cons, regKeys_cons]
      exact List.Sublist.cons₂ _ ih

theorem regGet_regDelete {reg : Registry} {k j : String} {r : RemoteDevice}
    (hnd : (regKeys reg).Nodup) (h : regGet (regDelete reg j) k = some r) :
    regGet reg k = some r := by
  induction reg with
  | nil => exact h
  | cons p rest ih =>
    rw [regKeys_cons, List.nodup_cons] at hnd
    rw [regDelete_cons] at h
    by_cases hp : p.1 = j
    · rw [if_pos hp] at h
      by_cases hk : p.1 = k
      · exfalso
        have hnm : k ∉ regKeys rest := by rw [← hk]; exact hnd.1
        rw [regGet_eq_none_of_not_mem hnm] at h
        exact Option.noConfusion h
      · rw [regGet_cons, if_neg hk]
        exact h
    · rw [if_neg hp, regGet_cons] at h
      by_cases hk : p.1 = k
      · rw [if_pos hk] at h
        rw [regGet_cons, if_pos hk]
        exact h
      · rw [if_neg hk] at h
        rw [regGet_cons, if_neg hk]
        exact ih hnd.2 h

theorem classify_of_inaccessible {r : RemoteDevice} (h : r.accessible = false) :
    classify r = DeviceOutcome.inaccessible := by
  unfold classify
  rw [h]
  rfl

theorem classify_of_unsupported {r : RemoteDevice} (hacc : r.accessible = true)
    (h : filtered (deviceOf r) = none) : classify r = DeviceOutcome.unsupported := by
  unfold classify
  rw [hacc, h]
  rfl

theorem passStep_eq (acc : Registry × List Device) (r : RemoteDevice) :
    passStep acc r =
      match importOf r with
      | none => acc
      | some d => (regSet acc.1 d.nativeId r, acc.2 ++ [d]) := by
  unfold passStep classify importOf
  by_cases h : r.accessible
  · rw [h]
    cases filtered (deviceOf r) <;> rfl
  · have hf : r.accessible = false := Bool.eq_false_iff.mpr h
    rw [hf]
    rfl

theorem foldl_passStep_eq (st : List RemoteDevice) (reg : Registry) (acc : List Device) :
    st.foldl passStep (reg, acc) = (applyIns reg (insertions st), acc ++ survivors st) := by
  induction st generalizing reg acc with
  | nil => simp [insertions, survivors, applyIns]
  | cons r st ih =>
    rw [List.foldl_cons, passStep_eq]
    cases h : importOf r with
    | none =>
      rw [show insertions (r :: st) = insertions st by
            unfold insertions; rw [List.filterMap_cons]; rw [h]; rfl,
          show survivors (r :: st) = survivors st by
            unfold survivors; rw [List.filterMap_cons, h]]
      exact ih reg acc
    | some d =>
      rw [show insertions (r :: st) = (d.nativeId, r) :: insertions st by
            unfold insertions; rw [List.filterMap_cons]; rw [h]; rfl,
          show survivors (r :: st) = d :: survivors st by
            unfold survivors; rw [List.filterMap_cons, h]]
      rw [show applyIns reg ((d.nativeId, r) :: insertions st)
            = applyIns (regSet reg d.nativeId r) (insertions st) from rfl]
      rw [ih]
      rw [List.append_assoc]
      rfl

theorem runPass_eq (reg : Registry) (st : List RemoteDevice) :
    runPass reg st = (applyIns reg (insertions st), survivors st) := by
  unfold runPass
  rw [foldl_passStep_eq]
  rw [List.nil_append]

theorem importOf_eq_some {r : RemoteDevice} {d : Device} (h : importOf r = some d) :
    r.accessible = true ∧ filtered (deviceOf r) = some d := by
  unfold importOf at h
  by_cases hacc : r.accessible
  · rw [if_pos hacc] at h
    exact ⟨hacc, h⟩
  · rw [if_neg hacc] at h
    exact Option.noConfusion h

theorem mem_insertions {st : List RemoteDevice} {p : String × RemoteDevice}
    (h : p ∈ insertions st) :
    ∃ d, importOf p.2 = some d ∧ p.1 = d.nativeId ∧ p.2 ∈ st ∧ d ∈ survivors st := by
  unfold insertions at h
  rcases List.mem_filterMap.mp h with ⟨r, hr, heq⟩
  cases hd : importOf r with
  | none => rw [hd] at heq; exact Option.noConfusion heq
  | some d =>
    rw [hd] at heq
    simp only [Option.map_some'] at heq
    have hp : p = (d.nativeId, r) := Option.some.inj heq |>.symm
    subst hp
    refine ⟨d, hd, rfl, hr, ?_⟩
    exact List.mem_filterMap.mpr ⟨r, hr, hd⟩

theorem insertions_keys_sublist (st : List RemoteDevice) :
    ((insertions st).map Prod.fst).Sublist (st.map RemoteDevice.id) := by
  induction st with
  | nil => exact List.Sublist.refl _
  | cons r st ih =>
    rw [show insertions (r :: st)
          = match importOf r with
            | none => insertions st
            | some d => (d.nativeId, r) :: insertions st by
          unfold insertions; rw [List.filterMap_cons]; cases importOf r <;> rfl]
    cases h : importOf r with
    | none =>
      rw [List.map_cons]
      exact List.Sublist.cons _ ih
    | some d =>
      rw [List.map_cons, List.map_cons]
      have hid : d.nativeId = r.id := by
        rcases importOf_eq_some h with ⟨_, hf⟩
        rw [filtered_nativeId hf]
        rfl
      rw [hid]
      exact List.Sublist.cons₂ _ ih

theorem runPass_skip {r : RemoteDevice} (h : importOf r = none)
    (reg : Registry) (st₁ st₂ : List RemoteDevice) :
    runPass reg (st₁ ++ r :: st₂) = runPass reg (st₁ ++ st₂) := by
  unfold runPass
  rw [List.foldl_append, List.foldl_cons, passStep_eq, h, List.foldl_append]

theorem mem_survivors {st : List RemoteDevice} {d : Device} (h : d ∈ survivors st) :
    ∃ r ∈ st, importOf r = some d := by
  unfold survivors at h
  exact List.mem_filterMap.mp h

theorem survivors_nativeId_mem {st : List RemoteDevice} {d : Device}
    (h : d ∈ survivors st) : d.nativeId ∈ st.map RemoteDevice.id := by
  rcases mem_survivors h with ⟨r, hr, himp⟩
  rcases importOf_eq_some himp with ⟨_, hf⟩
  have : d.nativeId = r.id := by rw [filtered_nativeId hf]; rfl
  rw [this]
  exact List.mem_map.mpr ⟨r, hr, rfl⟩

theorem regGet_runPass_not_mem {reg : Registry} {st : List RemoteDevice} {k : String}
    (h : k ∉ st.map RemoteDevice.id) :
    regGet (runPass reg st).1 k = regGet reg k := by
  rw [runPass_eq]
  exact regGet_applyIns_not_mem
    (fun hmem => h (List.Sublist.mem hmem (insertions_keys_sublist st)))

/-- Characterization of applyDiscover with a connected client: the
registry receives the insertions of the pass and the batch of survivors
is appended to the emission history. -/
theorem applyDiscover_some {s : PluginState} {c : Client} (hc : s.client = some c)
    (duration : Nat) :
    applyDiscover duration s =
      { s with devices := applyIns s.devices (insertions c.systemState),
               emitted := s.emitted ++ survivors c.systemState } := by
  obtain ⟨cl, devs, em⟩ := s
  cases hc
  show ({ client := some c, devices := (runPass devs c.systemState).1,
          emitted := em ++ ((some (runPass devs c.systemState).2).getD []) } : PluginState)
    = _
  rw [runPass_eq]
  rfl

/-- Characterization of applyDiscover without a client: the call returns
at main.ts line 126 and the state is untouched. -/
theorem applyDiscover_none {s : PluginState} (hc : s.client = none) (duration : Nat) :
    applyDiscover duration s = s := by
  obtain ⟨cl, devs, em⟩ := s
  cases hc
  show ({ client := none, devices := devs,
          emitted := em ++ (([] : List Device)) } : PluginState) = _
  rw [List.append_nil]

/-- The registry invariant: keys are unique; every registered handle has a
non-empty intersection of its declared interfaces with the allow-list; and
a pruned descriptor derived from that handle, keyed by the same identifier
and carrying a non-empty capability set, has been emitted to the host
device manager. -/
def RegistryInvariant (s : PluginState) : Prop :=
  (regKeys s.devices).Nodup ∧
  ∀ k r, regGet s.devices k = some r →
    allowedInterfaces.filter (fun i => r.interfaces.contains i) ≠ [] ∧
    ∃ d ∈ s.emitted, filtered (deviceOf r) = some d ∧ d.nativeId = k ∧ d.interfaces ≠ []

theorem invariant_applyDiscover {s : PluginState} (duration : Nat)
    (ih : RegistryInvariant s) : RegistryInvariant (applyDiscover duration s) := by
  cases hc : s.client with
  | none =>
    rw [applyDiscover_none hc]
    exact ih
  | some c =>
    rw [applyDiscover_some hc]
    refine ⟨regKeys_applyIns_nodup ih.1, ?_⟩
    intro k r hkr
    rcases regGet_applyIns_cases hkr with hmem | hget
    · rcases mem_insertions hmem with ⟨d, himp, hk, hrmem, hdsurv⟩
      rcases importOf_eq_some himp with ⟨hacc, hf⟩
      refine ⟨(filtered_eq_some hf).2, d, List.mem_append_right _ hdsurv, hf, hk.symm,
        filtered_interfaces_ne_nil hf⟩
    · rcases ih.2 k r hget with ⟨h1, d, hd, hrest⟩
      exact ⟨h1, d, List.mem_append_left _ hd, hrest⟩

theorem invariant_applyLogin {s : PluginState} (creds : Credentials)
    (connect : Except Unit Client) (ih : RegistryInvariant s) :
    RegistryInvariant (applyLogin s creds connect) := by
  exact ih

theorem invariant_applyRelease {s : PluginState} (i nativeId : String)
    (ih : RegistryInvariant s) : RegistryInvariant (applyRelease s i nativeId) := by
  refine ⟨(regKeys_regDelete_sublist s.devices nativeId).nodup ih.1, ?_⟩
  intro k r hkr
  exact ih.2 k r (regGet_regDelete ih.1 hkr)

theorem filtered_none_of_empty_inter {device : Device}
    (h : ∀ i ∈ allowedInterfaces, i ∉ device.interfaces) : filtered device = none := by
  have hfil : allowedInterfaces.filter (fun i => device.interfaces.contains i) = [] := by
    apply List.filter_eq_nil_iff.mpr
    intro a ha hc
    exact h a ha (List.elem_iff.mp hc)
  unfold filtered
  rw [hfil]
  rfl

theorem discoverDevices_some_eq (duration : Nat) (c : Client) (reg : Registry) :
    discoverDevices duration (some c) reg
      = { devices := (runPass reg c.systemState).1,
          notified := some (runPass reg c.systemState).2 } := rfl

theorem missingCredentials_of_empty {creds : Credentials}
    (h : creds.baseUrl = "" ∨ creds.username = "" ∨ creds.password = "") :
    missingCredentials creds = true := by
  unfold missingCredentials
  rcases h with h | h | h <;> simp [h]

/-- Shared exclusion argument for a device whose loop iteration continues
without registering or batching it: the pass result equals the result on
the snapshot with the device removed, the registry still has no entry for
its identifier, and no batch member carries its identifier. -/
theorem pass_excludes {duration : Nat} {c : Client} {reg : Registry}
    {st₁ st₂ : List RemoteDevice} {r : RemoteDevice}
    (hst : c.systemState = st₁ ++ r :: st₂)
    (himp : importOf r = none)
    (hreg : regGet reg r.id = none)
    (hids : r.id ∉ (st₁ ++ st₂).map RemoteDevice.id) :
    discoverDevices duration (some c) reg
      = discoverDevices duration (some { c with systemState := st₁ ++ st₂ }) reg ∧
    regGet (discoverDevices duration (some c) reg).devices r.id = none ∧
    ∀ batch, (discoverDevices duration (some c) reg).notified = some batch →
      ∀ d ∈ batch, d.nativeId ≠ r.id := by
  have hskip := runPass_skip himp reg st₁ st₂
  refine ⟨?_, ?_, ?_⟩
  · rw [discoverDevices_some_eq, discoverDevices_some_eq, hst, hskip]
  · rw [discoverDevices_some_eq]
    show regGet (runPass reg c.systemState).1 r.id = none
    rw [hst, hskip, regGet_runPass_not_mem hids]
    exact hreg
  · intro batch hb d hd hdid
    rw [discoverDevices_some_eq] at hb
    have hb2 : batch = (runPass reg c.systemState).2 := (Option.some.inj hb).symm
    rw [hb2, hst, hskip, runPass_eq] at hd
    exact hids (hdid ▸ survivors_nativeId_mem hd)

/-- A concrete remote camera: accessible, two allow-listed interfaces and
one that is not, declared out of allow-list order. -/
def rCam : RemoteDevice :=
  { id := "cam1", name := "Front Cam", type := "Camera",
    interfaces := ["Thermostat", "Camera", "VideoCamera"], info := "cam info",
    accessible := true, batteryLevel := 80 }

/-- A concrete remote thermostat: accessible but with no allow-listed
interface. -/
def rThermo : RemoteDevice :=
  { id := "t1", name := "Thermo", type := "Thermostat",
    interfaces := ["Thermostat"], info := "", accessible := true, batteryLevel := 0 }

/-- A concrete stale remote device: its handle access throws. -/
def rStale : RemoteDevice :=
  { id := "x1", name := "Stale", type := "Camera",
    interfaces := ["VideoCamera"], info := "", accessible := false, batteryLevel := 0 }

/-- A concrete client whose snapshot holds the three devices above. -/
def cDemo : Client :=
  { systemState := [rCam, rThermo, rStale], serverVersion := "0.7.0" }

/-- A concrete device whose declared capability set lies inside the
allow-list, so pruning keeps it whole. -/
def dBatteryOnly : Device :=
  { name := "battery sensor", type := "Sensor", interfaces := ["Battery"],
    info := "", nativeId := "b1" }

/-- A concrete device declaring allow-listed capabilities out of allow-list
order next to one capability outside the allow-list. -/
def dMix : Device :=
  { name := "mixed", type := "Camera",
    interfaces := ["MotionSensor", "Thermostat", "Camera"], info := "", nativeId := "m1" }

/-- Concrete non-empty credentials. -/
def demoCreds : Credentials :=
  { baseUrl := "https://localhost:10443", username := "admin", password := "secret" }

/-- Concrete credentials with an empty username. -/
def wCreds : Credentials :=
  { baseUrl := "https://localhost:10443", username := "", password := "secret" }

/-- A concrete battery-capable descriptor and its remote handle. -/
def dDoorbell : Device :=
  { name := "Doorbell", type := "Doorbell", interfaces := ["Camera", "Battery"],
    info := "", nativeId := "db1" }

/-- The remote handle behind dDoorbell. -/
def rDoorbell : RemoteDevice :=
  { id := "db1", name := "Doorbell", type := "Doorbell",
    interfaces := ["Camera", "Battery", "Thermostat"], info := "",
    accessible := true, batteryLevel := 77 }

/-- A host battery state with every slot blank. -/
def emptyBatteryState : HostBatteryState := fun _ => none

/-- C1 (counterexample to the claim as stated): for the device declaring
exactly the capability Battery, the intersection with the allow-list is
non-empty, filtered returns the descriptor unchanged, and the pruned
capability set is not a strict subset of the original capability set,
being equal to it. -/
theorem c1_strict_subset_counterexample :
    filtered dBatteryOnly = some dBatteryOnly ∧
    ¬ setStrictSubset dBatteryOnly.interfaces dBatteryOnly.interfaces := by
  constructor
  · decide
  · decide

/-- C1 (amended): for every device whose declared capability interfaces
have a non-empty intersection with the allow-list, filtered returns a
descriptor whose capability set is exactly the intersection ordered by the
allow-list (a sublist of the allow-list whose members are precisely the
common capabilities), a subset of the original capability set, and
non-empty; strictness of that subset does not hold in general. -/
theorem c1_filtered_ordered_intersection (device : Device)
    (h : ∃ i ∈ allowedInterfaces, i ∈ device.interfaces) :
    ∃ d, filtered device = some d ∧
      d.interfaces.Sublist allowedInterfaces ∧
      (∀ x, x ∈ d.interfaces ↔ x ∈ allowedInterfaces ∧ x ∈ device.interfaces) ∧
      setSubset d.interfaces device.interfaces ∧
      d.interfaces ≠ [] := by
  rcases h with ⟨i, hia, hid⟩
  have hmem : i ∈ allowedInterfaces.filter (fun j => device.interfaces.contains j) :=
    List.mem_filter.mpr ⟨hia, List.elem_iff.mpr hid⟩
  have hne : allowedInterfaces.filter (fun j => device.interfaces.contains j) ≠ [] :=
    fun hnil => by rw [hnil] at hmem; exact List.not_mem_nil i hmem
  refine ⟨_, filtered_isSome_of_inter hne, List.filter_sublist _, ?_, ?_, hne⟩
  · intro x
    constructor
    · intro hx
      have hx2 := List.mem_filter.mp hx
      exact ⟨hx2.1, List.elem_iff.mp hx2.2⟩
    · intro hx
      exact List.mem_filter.mpr ⟨hx.1, List.elem_iff.mpr hx.2⟩
  · intro x hx
    exact List.elem_iff.mp (List.mem_filter.mp hx).2

/-- C1 witness: the amended theorem applied to the concrete device dMix,
whose capabilities MotionSensor, Thermostat, Camera intersect the
allow-list in Camera and MotionSensor. -/
theorem c1_filtered_ordered_intersection_witness :
    (∃ i ∈ allowedInterfaces, i ∈ dMix.interfaces) ∧
    (∃ d, filtered dMix = some d ∧
      d.interfaces.Sublist allowedInterfaces ∧
      (∀ x, x ∈ d.interfaces ↔ x ∈ allowedInterfaces ∧ x ∈ dMix.interfaces) ∧
      setSubset d.interfaces dMix.interfaces ∧
      d.interfaces ≠ []) :=
  ⟨by decide, c1_filtered_ordered_intersection dMix (by decide)⟩

/-- C2: a device with an accessible handle and an empty intersection with
the allow-list is rejected by filtered; a discovery pass over a snapshot
holding it behaves exactly like the pass over the snapshot without it, it
gains no registry entry under its identifier, and no member of the batch
handed to onDevicesChanged carries its identifier. -/
theorem c2_unsupported_excluded (duration : Nat) (c : Client) (reg : Registry)
    (st₁ st₂ : List RemoteDevice) (r : RemoteDevice)
    (hst : c.systemState = st₁ ++ r :: st₂)
    (hacc : r.accessible = true)
    (hempty : ∀ i ∈ allowedInterfaces, i ∉ r.interfaces)
    (hreg : regGet reg r.id = none)
    (hids : r.id ∉ (st₁ ++ st₂).map RemoteDevice.id) :
    filtered (deviceOf r) = none ∧
    discoverDevices duration (some c) reg
      = discoverDevices duration (some { c with systemState := st₁ ++ st₂ }) reg ∧
    regGet (discoverDevices duration (some c) reg).devices r.id = none ∧
    ∀ batch, (discoverDevices duration (some c) reg).notified = some batch →
      ∀ d ∈ batch, d.nativeId ≠ r.id := by
  have hf : filtered (deviceOf r) = none := filtered_none_of_empty_inter hempty
  have himp : importOf r = none := by
    unfold importOf
    rw [if_pos hacc]
    exact hf
  exact ⟨hf, pass_excludes hst himp hreg hids⟩

/-- C2 witness: the theorem applied to the thermostat-only device rThermo
inside the concrete snapshot of cDemo, starting from the empty registry. -/
theorem c2_unsupported_excluded_witness :
    filtered (deviceOf rThermo) = none ∧
    discoverDevices 0 (some cDemo) []
      = discoverDevices 0 (some { cDemo with systemState := [rCam] ++ [rStale] }) [] ∧
    regGet (discoverDevices 0 (some cDemo) []).devices rThermo.id = none ∧
    ∀ batch, (discoverDevices 0 (some cDemo) []).notified = some batch →
      ∀ d ∈ batch, d.nativeId ≠ rThermo.id :=
  c2_unsupported_excluded 0 cDemo [] [rCam] [rStale] rThermo (by decide) (by decide)
    (by decide) rfl (by decide)

/-- C3: with unique snapshot identifiers and unique registry keys, running
discoverDevices twice against the same client state notifies the host with
content-equal batches, leaves the registry of the second pass equal to the
registry of the first pass (entries overwritten, not duplicated), and the
final registry keys are pairwise distinct. -/
theorem c3_second_pass_idempotent (duration₁ duration₂ : Nat) (c : Client) (reg : Registry)
    (hreg : (regKeys reg).Nodup)
    (hids : (c.systemState.map RemoteDevice.id).Nodup) :
    (discoverDevices duration₂ (some c) (discoverDevices duration₁ (some c) reg).devices).notified
      = (discoverDevices duration₁ (some c) reg).notified ∧
    (discoverDevices duration₂ (some c) (discoverDevices duration₁ (some c) reg).devices).devices
      = (discoverDevices duration₁ (some c) reg).devices ∧
    (regKeys (discoverDevices duration₂ (some c)
        (discoverDevices duration₁ (some c) reg).devices).devices).Nodup := by
  have hkeys : ((insertions c.systemState).map Prod.fst).Nodup :=
    (insertions_keys_sublist c.systemState).nodup hids
  have hdev : applyIns (applyIns reg (insertions c.systemState)) (insertions c.systemState)
      = applyIns reg (insertions c.systemState) :=
    applyIns_eq_of_all_regGet (regGet_applyIns_mem_nodup hkeys)
  simp only [discoverDevices_some_eq, runPass_eq]
  refine ⟨trivial, hdev, ?_⟩
  rw [show applyIns (applyIns reg (insertions c.systemState), survivors c.systemState).1
        (insertions c.systemState)
      = applyIns (applyIns reg (insertions c.systemState)) (insertions c.systemState) from rfl,
    hdev]
  exact regKeys_applyIns_nodup hreg

/-- C3 witness: the theorem applied to the concrete client cDemo and the
empty registry, with durations 0 and 1. -/
theorem c3_second_pass_idempotent_witness :
    (discoverDevices 1 (some cDemo) (discoverDevices 0 (some cDemo) []).devices).notified
      = (discoverDevices 0 (some cDemo) []).notified ∧
    (discoverDevices 1 (some cDemo) (discoverDevices 0 (some cDemo) []).devices).devices
      = (discoverDevices 0 (some cDemo) []).devices ∧
    (regKeys (discoverDevices 1 (some cDemo)
        (discoverDevices 0 (some cDemo) []).devices).devices).Nodup :=
  c3_second_pass_idempotent 0 1 cDemo [] (by decide) (by decide)

/-- C4: invoking the wrapped stream-request entry point with no options
delegates to the original entry point with an options object whose route
field is external and no other fields, and returns exactly the original
result; with caller-supplied options, route is set to external and every
other caller-visible field is kept. -/
theorem c4_video_stream_wrapper {α : Type} (remoteGetVideoStream : StreamOptions → α) :
    newGetVideoStream remoteGetVideoStream none
      = remoteGetVideoStream { route := some "external", fields := [] } ∧
    ∀ options : StreamOptions,
      (injectRoute options).route = some "external" ∧
      (injectRoute options).fields = options.fields ∧
      newGetVideoStream remoteGetVideoStream (some options)
        = remoteGetVideoStream (injectRoute options) :=
  ⟨rfl, fun _ => ⟨rfl, rfl, rfl⟩⟩

/-- C5: at every reachable plugin state the registry keys are pairwise
distinct and every registry entry holds a handle with a non-empty
allow-list intersection whose pruned descriptor, keyed by the same
identifier and carrying a non-empty capability set, has been emitted to
the host device manager. -/
theorem c5_registry_invariant {s : PluginState} (h : Reachable s) :
    RegistryInvariant s := by
  induction h with
  | init => exact ⟨List.nodup_nil, fun k r hkr => Option.noConfusion hkr⟩
  | step _ hstep ih =>
    cases hstep with
    | discover duration => exact invariant_applyDiscover duration ih
    | login creds connect => exact invariant_applyLogin creds connect ih
    | release i nativeId => exact invariant_applyRelease i nativeId ih

/-- C5 witness: the invariant at the concrete state reached by a login
against cDemo followed by one discovery pass. -/
theorem c5_registry_invariant_witness :
    RegistryInvariant (applyDiscover 0 (applyLogin initialState demoCreds (Except.ok cDemo))) :=
  c5_registry_invariant
    (Reachable.step
      (Reachable.step Reachable.init (Step.login initialState demoCreds (Except.ok cDemo)))
      (Step.discover (applyLogin initialState demoCreds (Except.ok cDemo)) 0))

/-- C6: tryLogin never depends on the previous session, which is discarded
at line 95 before anything else; with any empty credential field it leaves
the client null, raises the configuration error, attempts no network
interaction, and its outcome is independent of the connect result. -/
theorem c6_trylogin_guard (prev prev' : Option Client) (creds : Credentials)
    (connect connect' : Except Unit Client) :
    tryLogin prev creds connect = tryLogin prev' creds connect ∧
    ((creds.baseUrl = "" ∨ creds.username = "" ∨ creds.password = "") →
      (tryLogin prev creds connect).client = none ∧
      (tryLogin prev creds connect).error = some LoginError.configError ∧
      (tryLogin prev creds connect).networkAttempted = false ∧
      tryLogin prev creds connect = tryLogin prev creds connect') := by
  refine ⟨rfl, fun h => ?_⟩
  have hcond := missingCredentials_of_empty h
  unfold tryLogin
  rw [if_pos hcond, if_pos hcond]
  exact ⟨rfl, rfl, rfl, rfl⟩

/-- C6 witness: the theorem applied to credentials with an empty username,
a previous live session, and both a succeeding and a failing connect. -/
theorem c6_trylogin_guard_witness :
    (wCreds.baseUrl = "" ∨ wCreds.username = "" ∨ wCreds.password = "") ∧
    ((tryLogin (some cDemo) wCreds (Except.ok cDemo)).client = none ∧
     (tryLogin (some cDemo) wCreds (Except.ok cDemo)).error = some LoginError.configError ∧
     (tryLogin (some cDemo) wCreds (Except.ok cDemo)).networkAttempted = false ∧
     tryLogin (some cDemo) wCreds (Except.ok cDemo)
       = tryLogin (some cDemo) wCreds (Except.error ())) :=
  ⟨Or.inr (Or.inl rfl),
   (c6_trylogin_guard (some cDemo) none wCreds (Except.ok cDemo) (Except.error ())).2
     (Or.inr (Or.inl rfl))⟩

/-- C7: a device whose handle access throws is classified inaccessible, an
outcome distinct from the unsupported rejection; the discovery pass equals
the pass over the snapshot without it, so the remaining devices are still
processed, and the device appears neither in the registry nor in the
notification batch. -/
theorem c7_inaccessible_skipped (duration : Nat) (c : Client) (reg : Registry)
    (st₁ st₂ : List RemoteDevice) (r : RemoteDevice)
    (hst : c.systemState = st₁ ++ r :: st₂)
    (hacc : r.accessible = false)
    (hreg : regGet reg r.id = none)
    (hids : r.id ∉ (st₁ ++ st₂).map RemoteDevice.id) :
    classify r = DeviceOutcome.inaccessible ∧
    DeviceOutcome.inaccessible ≠ DeviceOutcome.unsupported ∧
    discoverDevices duration (some c) reg
      = discoverDevices duration (some { c with systemState := st₁ ++ st₂ }) reg ∧
    regGet (discoverDevices duration (some c) reg).devices r.id = none ∧
    ∀ batch, (discoverDevices duration (some c) reg).notified = some batch →
      ∀ d ∈ batch, d.nativeId ≠ r.id := by
  have hnot : ¬ (r.accessible = true) := by rw [hacc]; exact Bool.false_ne_true
  have himp : importOf r = none := by
    unfold importOf
    rw [if_neg hnot]
  exact ⟨classify_of_inaccessible hacc, fun hh => DeviceOutcome.noConfusion hh,
    pass_excludes hst himp hreg hids⟩

/-- C7 witness: the theorem applied to the stale device rStale at the end
of the concrete snapshot of cDemo, starting from the empty registry. -/
theorem c7_inaccessible_skipped_witness :
    classify rStale = DeviceOutcome.inaccessible ∧
    DeviceOutcome.inaccessible ≠ DeviceOutcome.unsupported ∧
    discoverDevices 0 (some cDemo) []
      = discoverDevices 0 (some { cDemo with systemState := [rCam, rThermo] ++ [] }) [] ∧
    regGet (discoverDevices 0 (some cDemo) []).devices rStale.id = none ∧
    ∀ batch, (discoverDevices 0 (some cDemo) []).notified = some batch →
      ∀ d ∈ batch, d.nativeId ≠ rStale.id :=
  c7_inaccessible_skipped 0 cDemo [] [rCam, rThermo] [] rStale (by decide) (by decide) rfl
    (by decide)

/-- C8: immediately after wiring, before any change event, the local
battery-level slot of a battery-capable device equals the current battery
level of its remote handle. -/
theorem c8_battery_seed (device : Device) (remoteDevice : RemoteDevice)
    (hs : HostBatteryState) (h : device.interfaces.contains "Battery" = true) :
    seedBattery device remoteDevice hs device.nativeId = some remoteDevice.batteryLevel := by
  unfold seedBattery
  rw [if_pos h]
  show (if device.nativeId = device.nativeId
        then some remoteDevice.batteryLevel
        else hs device.nativeId) = some remoteDevice.batteryLevel
  rw [if_pos rfl]

/-- C8 witness: the theorem applied to the concrete battery-capable
doorbell over a blank host state. -/
theorem c8_battery_seed_witness :
    seedBattery dDoorbell rDoorbell emptyBatteryState dDoorbell.nativeId
      = some rDoorbell.batteryLevel :=
  c8_battery_seed dDoorbell rDoorbell emptyBatteryState (by decide)

/-- C9: with no client, discoverDevices returns at line 126 without any
action: the registry result is the input registry unchanged and the host
device manager is not notified. -/
theorem c9_no_client_noop (duration : Nat) (reg : Registry) :
    discoverDevices duration none reg = { devices := reg, notified := none } := rfl

/-- C10: the duration parameter of discoverDevices has no effect: any two
durations over the same client state and registry produce identical
registry updates and identical notification batches. -/
theorem c10_duration_irrelevant (duration₁ duration₂ : Nat) (client : Option Client)
    (reg : Registry) :
    discoverDevices duration₁ client reg = discoverDevices duration₂ client reg := rfl

end ScryptedRemote
